import Mathlib

/-!
Shallow embedding of the Hierarchical Settings Resolution & Pending-Change
Buffer core of `SettingsModalV2` (settings modal component).

The component state is modelled by `ModalState`: the two pending-change
buffers (`pendingAppChanges`, `pendingProjectChanges`), the last-fetched
effective-settings snapshot (`effectiveSettings`, an `Option` since the
query may not have produced data), the save-in-flight flag (`isSaving`),
the current project (`projectName`, `none` when no project is selected)
and the modal open flag.

JavaScript objects holding setting values are modelled as association
lists from `String` keys to a `Value` sum type; spread-merge
`\x7b...prev, ...update\x7d` is `objMerge`. Store writes issued by the
handlers are returned explicitly as a `List StoreWrite` trace so that
theorems can speak about which writes happen.
-/

namespace AutocoderSettings

/-- Setting values (model selections are strings, toggles booleans,
small integer ranges naturals). -/
inductive Value where
  | str (s : String)
  | bool (b : Bool)
  | nat (n : Nat)
deriving DecidableEq, Repr

/-- A JavaScript object of setting key/value pairs, as an association list.
Lookup takes the first matching key. -/
abbrev Obj := List (String × Value)

/-- JS spread merge `\x7b ...prev, ...update \x7d`: entries of `update`
override entries of `prev`; all other entries of `prev` are kept. -/
def objMerge (prev update : Obj) : Obj :=
  prev.filter (fun p => (update.lookup p.1).isNone) ++ update

/-- Provenance of an effective setting (`SettingSource` in the component). -/
inductive SettingSource where
  | project
  | app
  | default
deriving DecidableEq, Repr

/-- Payload of the effective-settings query: resolved values and their
per-key sources, as returned by the backend. -/
structure EffectiveSettingsData where
  settings : Obj
  sources : List (String × SettingSource)
deriving DecidableEq, Repr

/-- The component state relevant to resolution and the pending buffers. -/
structure ModalState where
  isOpen : Bool
  projectName : Option String
  effectiveSettings : Option EffectiveSettingsData
  pendingAppChanges : Obj
  pendingProjectChanges : Obj
  isSaving : Bool
deriving DecidableEq, Repr

/-- `UI_ONLY_SETTINGS`: settings that auto-apply immediately (UI-only,
never buffered). -/
def UI_ONLY_SETTINGS : List String :=
  ["showDebugPanel", "celebrateOnComplete", "theme", "darkMode",
   "debugPanelHeight", "kanbanColumns"]

/-- Membership test in `UI_ONLY_SETTINGS` (`UI_ONLY_SETTINGS.has(key)`). -/
def isUiOnly (k : String) : Bool := UI_ONLY_SETTINGS.contains k

/-- A write issued against the external settings store
(`updateApp.mutate`/`mutateAsync` or `updateProject.mutateAsync`). -/
inductive StoreWrite where
  | writeApp (changes : Obj)
  | writeProject (project : String) (changes : Obj)
deriving DecidableEq, Repr

/-- `hasUnsavedAppChanges`: `Object.keys(pendingAppChanges).length > 0`. -/
def hasUnsavedAppChanges (s : ModalState) : Bool :=
  !s.pendingAppChanges.isEmpty

/-- `hasUnsavedProjectChanges`:
`Object.keys(pendingProjectChanges).length > 0`. -/
def hasUnsavedProjectChanges (s : ModalState) : Bool :=
  !s.pendingProjectChanges.isEmpty

/-- `hasUnsavedChanges = hasUnsavedAppChanges || hasUnsavedProjectChanges`. -/
def hasUnsavedChanges (s : ModalState) : Bool :=
  hasUnsavedAppChanges s || hasUnsavedProjectChanges s

/-- `getSource`: source for a setting, read from the fetched effective
snapshot only, with `default` when the snapshot or entry is missing. -/
def getSource (s : ModalState) (key : String) : SettingSource :=
  match s.effectiveSettings with
  | some eff =>
    match eff.sources.lookup key with
    | some src => src
    | none => SettingSource.default
  | none => SettingSource.default

/-- `getEffective`: effective value for a setting including pending
changes. Checks `pendingAppChanges` first, then `pendingProjectChanges`,
then the fetched effective snapshot, finally the fallback supplied by the caller. -/
def getEffective (s : ModalState) (key : String) (fallback : Value) : Value :=
  match s.pendingAppChanges.lookup key with
  | some v => v
  | none =>
    match s.pendingProjectChanges.lookup key with
    | some v => v
    | none =>
      match s.effectiveSettings with
      | some eff =>
        match eff.settings.lookup key with
        | some v => v
        | none => fallback
      | none => fallback

/-- `handleAppChange`: no-op while saving; otherwise split the update into
UI-only changes (written to the store immediately via `updateApp.mutate`)
and agent changes (merged into `pendingAppChanges`). -/
def handleAppChange (s : ModalState) (update : Obj) :
    ModalState × List StoreWrite :=
  if s.isSaving then (s, [])
  else
    let uiChanges := update.filter (fun p => isUiOnly p.1)
    let agentChanges := update.filter (fun p => !isUiOnly p.1)
    let writes :=
      if uiChanges.isEmpty then [] else [StoreWrite.writeApp uiChanges]
    let next :=
      if agentChanges.isEmpty then s
      else { s with pendingAppChanges := objMerge s.pendingAppChanges agentChanges }
    (next, writes)

/-- `handleProjectChange`: no-op while saving or with no project selected;
otherwise merge the update into `pendingProjectChanges` (no store write). -/
def handleProjectChange (s : ModalState) (update : Obj) :
    ModalState × List StoreWrite :=
  if s.isSaving || s.projectName.isNone then (s, [])
  else
    ({ s with
        pendingProjectChanges := objMerge s.pendingProjectChanges update }, [])

/-- Result of `handleSave`: the state after the save attempt, the store
writes attempted, and whether the whole save succeeded. -/
structure SaveResult where
  state : ModalState
  writes : List StoreWrite
  succeeded : Bool
deriving DecidableEq, Repr

/-- Second half of `handleSave`: flush `pendingProjectChanges` when
nonempty and a project is selected; `projOk` is the outcome of the store
write. On success the project buffer is cleared; on failure the
`mutateAsync` rejection aborts before the buffer is cleared. -/
def handleSaveProjectPhase (s : ModalState) (projOk : Bool)
    (ws : List StoreWrite) : SaveResult :=
  if hasUnsavedProjectChanges s then
    match s.projectName with
    | some name =>
      if projOk then
        ⟨{ s with pendingProjectChanges := [] },
          ws ++ [StoreWrite.writeProject name s.pendingProjectChanges], true⟩
      else
        ⟨s, ws ++ [StoreWrite.writeProject name s.pendingProjectChanges], false⟩
    | none => ⟨s, ws, true⟩
  else ⟨s, ws, true⟩

/-- `handleSave`: flush `pendingAppChanges` first when nonempty (`appOk`
is the store outcome; on failure the rejection aborts the function, so the
app buffer is kept and the project flush is never attempted), then flush
the project scope. -/
def handleSave (s : ModalState) (appOk projOk : Bool) : SaveResult :=
  if hasUnsavedAppChanges s then
    if appOk then
      handleSaveProjectPhase { s with pendingAppChanges := [] } projOk
        [StoreWrite.writeApp s.pendingAppChanges]
    else ⟨s, [StoreWrite.writeApp s.pendingAppChanges], false⟩
  else handleSaveProjectPhase s projOk []

/-- `handleCancel`: discard pending changes — both buffers cleared, no
store writes. -/
def handleCancel (s : ModalState) : ModalState × List StoreWrite :=
  ({ s with pendingAppChanges := [], pendingProjectChanges := [] }, [])

/-- Closing the modal: the `useEffect` on `isOpen` clears both pending
buffers when the modal is no longer open; no store write is issued. -/
def closeModal (s : ModalState) : ModalState × List StoreWrite :=
  ({ s with
      isOpen := false, pendingAppChanges := [], pendingProjectChanges := [] },
   [])

/-- A user edit routed through one of the two change handlers. -/
inductive EditOp where
  | appChange (update : Obj)
  | projectChange (update : Obj)
deriving DecidableEq, Repr

/-- Apply a single edit. -/
def applyEdit (s : ModalState) (op : EditOp) : ModalState × List StoreWrite :=
  match op with
  | .appChange u => handleAppChange s u
  | .projectChange u => handleProjectChange s u

/-- Apply a sequence of edits, accumulating the store-write trace. -/
def applyEdits (s : ModalState) (ops : List EditOp) :
    ModalState × List StoreWrite :=
  match ops with
  | [] => (s, [])
  | op :: rest =>
    let r := applyEdit s op
    let r2 := applyEdits r.1 rest
    (r2.1, r.2 ++ r2.2)

/-- An edit is buffered (never immediately applied) when it touches no
UI-only key; project-scope edits are always buffered. -/
def editIsBuffered : EditOp → Bool
  | .appChange u => u.all (fun p => !isUiOnly p.1)
  | .projectChange _ => true

/-- Any state-changing operation on the modal (used to state buffer
invariants over every reachable state). -/
inductive ModalOp where
  | appChange (u : Obj)
  | projectChange (u : Obj)
  | save (appOk projOk : Bool)
  | cancel
  | close
deriving DecidableEq, Repr

/-- Apply any modal operation to the state. -/
def applyModalOp (s : ModalState) (op : ModalOp) : ModalState :=
  match op with
  | .appChange u => (handleAppChange s u).1
  | .projectChange u => (handleProjectChange s u).1
  | .save a p => (handleSave s a p).state
  | .cancel => (handleCancel s).1
  | .close => (closeModal s).1

/-- Invariant: every key in the app-scope pending buffer is an agent key
(not UI-only). -/
def appBufferAgentOnly (s : ModalState) : Prop :=
  ∀ p ∈ s.pendingAppChanges, isUiOnly p.1 = false

/-- A key is unknown to the whole resolution pipeline: absent from both
pending buffers and (when a snapshot is loaded) from both the resolved
values and the per-key sources of the snapshot. -/
def keyUnknown (s : ModalState) (k : String) : Bool :=
  (s.pendingAppChanges.lookup k).isNone &&
  (s.pendingProjectChanges.lookup k).isNone &&
  (match s.effectiveSettings with
   | some eff => (eff.sources.lookup k).isNone && (eff.settings.lookup k).isNone
   | none => true)

/-- A loaded snapshot: `yoloMode` resolved from the app scope. -/
def demoSnapshot : EffectiveSettingsData :=
  ⟨[("yoloMode", Value.bool false), ("coderModel", Value.str "sonnet")],
   [("yoloMode", SettingSource.app), ("coderModel", SettingSource.app)]⟩

/-- An idle state: snapshot loaded, both buffers empty, not saving. -/
def sIdle : ModalState :=
  { isOpen := true
    projectName := some "demo"
    effectiveSettings := some demoSnapshot
    pendingAppChanges := []
    pendingProjectChanges := []
    isSaving := false }

/-- A dirty state: one pending edit in each scope. -/
def sDirty : ModalState :=
  { sIdle with
    pendingAppChanges := [("yoloMode", Value.bool true)]
    pendingProjectChanges := [("coderModel", Value.str "opus")] }

/-- A state with a save in flight. -/
def sSaving : ModalState := { sDirty with isSaving := true }

/-- A state with one unsaved project-scope edit (`yoloMode := true`)
whose snapshot provenance is `app`. -/
def sEdited : ModalState :=
  { sIdle with pendingProjectChanges := [("yoloMode", Value.bool true)] }

/-- A state where the same key sits in both pending buffers with
different values. -/
def sBothBuffers : ModalState :=
  { sIdle with
    pendingAppChanges := [("coderModel", Value.str "appChoice")]
    pendingProjectChanges := [("coderModel", Value.str "projChoice")] }

/-- A state whose only pending edit is project-scope. -/
def sProjOnly : ModalState :=
  { sIdle with pendingProjectChanges := [("yoloMode", Value.bool true)] }

/-- A state where the effective-settings fetch has produced no snapshot. -/
def sNoSnapshot : ModalState :=
  { isOpen := true
    projectName := some "demo"
    effectiveSettings := none
    pendingAppChanges := []
    pendingProjectChanges := []
    isSaving := false }

/-- A UI-only edit (display toggle). -/
def uiEdit : Obj := [("showDebugPanel", Value.bool true)]

/-- A concrete sequence of buffered edits across both scopes. -/
def opsDemo : List EditOp :=
  [EditOp.appChange [("yoloMode", Value.bool true)],
   EditOp.projectChange [("coderModel", Value.str "opus")]]

end AutocoderSettings

namespace AutocoderSettings

/-! ## Helper lemmas -/

theorem handleAppChange_effectiveSettings (s : ModalState) (u : Obj) :
    (handleAppChange s u).1.effectiveSettings = s.effectiveSettings := by
  unfold handleAppChange
  split
  · rfl
  · dsimp only
    split <;> rfl

theorem handleProjectChange_effectiveSettings (s : ModalState) (u : Obj) :
    (handleProjectChange s u).1.effectiveSettings = s.effectiveSettings := by
  unfold handleProjectChange
  split <;> rfl

theorem applyEdit_effectiveSettings (s : ModalState) (op : EditOp) :
    (applyEdit s op).1.effectiveSettings = s.effectiveSettings := by
  cases op with
  | appChange u => exact handleAppChange_effectiveSettings s u
  | projectChange u => exact handleProjectChange_effectiveSettings s u

theorem applyEdits_effectiveSettings (s : ModalState) (ops : List EditOp) :
    (applyEdits s ops).1.effectiveSettings = s.effectiveSettings := by
  induction ops generalizing s with
  | nil => rfl
  | cons op rest ih =>
    simpa [applyEdits] using
      (ih (applyEdit s op).1).trans (applyEdit_effectiveSettings s op)

theorem applyEdit_no_writes_of_buffered (s : ModalState) (op : EditOp)
    (h : editIsBuffered op = true) : (applyEdit s op).2 = [] := by
  cases op with
  | appChange u =>
    simp only [editIsBuffered] at h
    have hall : ∀ p ∈ u, isUiOnly p.1 = false := by
      intro p hp
      have hb := List.all_eq_true.mp h p hp
      simpa using hb
    show (handleAppChange s u).2 = []
    unfold handleAppChange
    split
    · rfl
    · have hfil : u.filter (fun p => isUiOnly p.1) = [] := by
        rw [List.filter_eq_nil_iff]
        intro p hp
        simp [hall p hp]
      simp [hfil]
  | projectChange u =>
    show (handleProjectChange s u).2 = []
    unfold handleProjectChange
    split <;> rfl

theorem applyEdits_no_writes_of_buffered (s : ModalState) (ops : List EditOp)
    (h : ops.all editIsBuffered = true) : (applyEdits s ops).2 = [] := by
  induction ops generalizing s with
  | nil => rfl
  | cons op rest ih =>
    simp only [List.all_cons, Bool.and_eq_true] at h
    simp [applyEdits, applyEdit_no_writes_of_buffered s op h.1,
      ih (applyEdit s op).1 h.2]

theorem getEffective_eq_of_parts (s t : ModalState) (k : String) (fb : Value)
    (h1 : s.pendingAppChanges = t.pendingAppChanges)
    (h2 : s.pendingProjectChanges = t.pendingProjectChanges)
    (h3 : s.effectiveSettings = t.effectiveSettings) :
    getEffective s k fb = getEffective t k fb := by
  unfold getEffective
  rw [h1, h2, h3]

/-! ## Claim theorems -/

/-- C4: if during save the app-scope flush succeeds and the project-scope
flush fails, afterwards the app-scope buffer is empty, the project-scope
buffer still contains every unflushed entry (nothing silently discarded),
and the save reports failure after attempting both writes. -/
theorem C4_failed_project_flush_retains_buffer (s : ModalState) (p : String)
    (hp : s.projectName = some p)
    (hApp : s.pendingAppChanges ≠ [])
    (hProj : s.pendingProjectChanges ≠ []) :
    (handleSave s true false).state.pendingAppChanges = [] ∧
    (handleSave s true false).state.pendingProjectChanges =
      s.pendingProjectChanges ∧
    (handleSave s true false).succeeded = false ∧
    (handleSave s true false).writes =
      [StoreWrite.writeApp s.pendingAppChanges,
       StoreWrite.writeProject p s.pendingProjectChanges] := by
  unfold handleSave handleSaveProjectPhase
    hasUnsavedAppChanges hasUnsavedProjectChanges
  simp [hp, hApp, hProj]

/-- C4 witness: the partial-failure theorem at a concrete dirty state. -/
theorem C4_failed_project_flush_retains_buffer_check :
    (handleSave sDirty true false).state.pendingAppChanges = [] ∧
    (handleSave sDirty true false).state.pendingProjectChanges =
      sDirty.pendingProjectChanges ∧
    (handleSave sDirty true false).succeeded = false ∧
    (handleSave sDirty true false).writes =
      [StoreWrite.writeApp sDirty.pendingAppChanges,
       StoreWrite.writeProject "demo" sDirty.pendingProjectChanges] :=
  C4_failed_project_flush_retains_buffer sDirty "demo" rfl
    (by decide) (by decide)

/-- C5: when both pending buffers are empty, save performs no store writes
at all, leaves the state unchanged, and succeeds. -/
theorem C5_save_on_empty_buffers_writes_nothing (s : ModalState)
    (appOk projOk : Bool)
    (hApp : s.pendingAppChanges = [])
    (hProj : s.pendingProjectChanges = []) :
    (handleSave s appOk projOk).writes = [] ∧
    (handleSave s appOk projOk).state = s ∧
    (handleSave s appOk projOk).succeeded = true := by
  unfold handleSave handleSaveProjectPhase
    hasUnsavedAppChanges hasUnsavedProjectChanges
  simp [hApp, hProj]

/-- C5 witness: empty-buffer save at a concrete idle state. -/
theorem C5_save_on_empty_buffers_writes_nothing_check :
    (handleSave sIdle true false).writes = [] ∧
    (handleSave sIdle true false).state = sIdle ∧
    (handleSave sIdle true false).succeeded = true :=
  C5_save_on_empty_buffers_writes_nothing sIdle true false rfl rfl

/-- C9: while a save is in flight (`isSaving = true`), every incoming
app-scope or project-scope edit is a no-op — the state (hence both
buffers) is unchanged and no store write is issued. -/
theorem C9_edits_are_noops_while_saving (s : ModalState) (u v : Obj)
    (h : s.isSaving = true) :
    handleAppChange s u = (s, []) ∧ handleProjectChange s v = (s, []) := by
  constructor
  · unfold handleAppChange
    simp [h]
  · unfold handleProjectChange
    simp [h]

/-- C9 witness: edits during a concrete in-flight save change nothing. -/
theorem C9_edits_are_noops_while_saving_check :
    handleAppChange sSaving [("yoloMode", Value.bool false)] = (sSaving, []) ∧
    handleProjectChange sSaving [("coderModel", Value.str "haiku")] =
      (sSaving, []) :=
  C9_edits_are_noops_while_saving sSaving
    [("yoloMode", Value.bool false)] [("coderModel", Value.str "haiku")] rfl

/-- C10: closing the settings modal unconditionally empties both pending
buffers, issues no store write, and leaves the modal closed — unsaved
edits are silently discarded, for every starting state. -/
theorem C10_close_discards_both_buffers (s : ModalState) :
    (closeModal s).1.pendingAppChanges = [] ∧
    (closeModal s).1.pendingProjectChanges = [] ∧
    (closeModal s).2 = [] ∧
    (closeModal s).1.isOpen = false := by
  unfold closeModal
  simp

/-- C3: after any sequence of buffered edits starting from a clean state,
the edits issue no store writes, cancel issues no store writes, clears
both buffers, and restores the effective view of every key to its
pre-edit value. -/
theorem C3_edit_then_cancel_is_identity (s : ModalState) (ops : List EditOp)
    (k : String) (fb : Value)
    (hApp : s.pendingAppChanges = [])
    (hProj : s.pendingProjectChanges = [])
    (hBuf : ops.all editIsBuffered = true) :
    (applyEdits s ops).2 = [] ∧
    (handleCancel (applyEdits s ops).1).2 = [] ∧
    (handleCancel (applyEdits s ops).1).1.pendingAppChanges = [] ∧
    (handleCancel (applyEdits s ops).1).1.pendingProjectChanges = [] ∧
    getEffective (handleCancel (applyEdits s ops).1).1 k fb =
      getEffective s k fb := by
  refine ⟨applyEdits_no_writes_of_buffered s ops hBuf, rfl, rfl, rfl, ?_⟩
  apply getEffective_eq_of_parts
  · exact hApp.symm
  · exact hProj.symm
  · exact applyEdits_effectiveSettings s ops

/-- C3 witness: edit both scopes from the idle state, then cancel. -/
theorem C3_edit_then_cancel_is_identity_check :
    (applyEdits sIdle opsDemo).2 = [] ∧
    (handleCancel (applyEdits sIdle opsDemo).1).2 = [] ∧
    (handleCancel (applyEdits sIdle opsDemo).1).1.pendingAppChanges = [] ∧
    (handleCancel (applyEdits sIdle opsDemo).1).1.pendingProjectChanges = [] ∧
    getEffective (handleCancel (applyEdits sIdle opsDemo).1).1 "yoloMode"
        (Value.bool true) =
      getEffective sIdle "yoloMode" (Value.bool true) :=
  C3_edit_then_cancel_is_identity sIdle opsDemo "yoloMode" (Value.bool true)
    rfl rfl (by decide)

/-- Single-step preservation of the buffer invariant: every modal
operation keeps the app-scope buffer free of UI-only keys. -/
theorem appBufferAgentOnly_step (t : ModalState) (op : ModalOp)
    (h : appBufferAgentOnly t) : appBufferAgentOnly (applyModalOp t op) := by
  cases op with
  | appChange u =>
    show appBufferAgentOnly (handleAppChange t u).1
    unfold handleAppChange
    split
    · exact h
    · dsimp only
      split
      · exact h
      · intro p hp
        simp only [objMerge, List.mem_append] at hp
        rcases hp with h1 | h2
        · exact h p (List.mem_filter.mp h1).1
        · have hb := (List.mem_filter.mp h2).2
          simpa using hb
  | projectChange u =>
    show appBufferAgentOnly (handleProjectChange t u).1
    unfold handleProjectChange
    split
    · exact h
    · exact h
  | save a b =>
    show appBufferAgentOnly (handleSave t a b).state
    unfold handleSave handleSaveProjectPhase
    repeat' split
    all_goals first
      | exact h
      | (intro p hp; simp at hp)
  | cancel =>
    intro p hp
    simp [applyModalOp, handleCancel] at hp
  | close =>
    intro p hp
    simp [applyModalOp, closeModal] at hp

/-- C6: a change touching only UI-only keys is written to the store
immediately, leaves the component state (hence both buffers) unchanged,
keeps `hasUnsavedChanges` false, and every modal operation preserves the
invariant that the app-scope buffer holds only agent (non-UI-only) keys. -/
theorem C6_ui_only_edits_apply_immediately (s : ModalState) (u : Obj)
    (hs : s.isSaving = false)
    (hui : u.all (fun p => isUiOnly p.1) = true)
    (hne : u ≠ []) :
    (handleAppChange s u).2 = [StoreWrite.writeApp u] ∧
    (handleAppChange s u).1 = s ∧
    (hasUnsavedChanges s = false →
      hasUnsavedChanges (handleAppChange s u).1 = false) ∧
    (∀ t : ModalState, ∀ op : ModalOp,
      appBufferAgentOnly t → appBufferAgentOnly (applyModalOp t op)) := by
  have hallT : ∀ p ∈ u, isUiOnly p.1 = true := by
    intro p hp
    simpa using List.all_eq_true.mp hui p hp
  have hfilUi : u.filter (fun p => isUiOnly p.1) = u :=
    List.filter_eq_self.mpr hallT
  have hfilAg : u.filter (fun p => !isUiOnly p.1) = [] := by
    rw [List.filter_eq_nil_iff]
    intro p hp
    simp [hallT p hp]
  have hemp : u.isEmpty = false := by
    cases u with
    | nil => exact absurd rfl hne
    | cons a l => rfl
  have hstate : (handleAppChange s u).1 = s := by
    unfold handleAppChange
    simp [hs, hfilAg]
  have hwrites : (handleAppChange s u).2 = [StoreWrite.writeApp u] := by
    unfold handleAppChange
    simp [hs, hfilUi, hfilAg, hemp]
  refine ⟨hwrites, hstate, ?_, fun t op => appBufferAgentOnly_step t op⟩
  intro hh
  rw [hstate]
  exact hh

/-- C6 witness: a concrete display-toggle edit from the idle state, plus
one concrete invariant-preservation step. -/
theorem C6_ui_only_edits_apply_immediately_check :
    (handleAppChange sIdle uiEdit).2 = [StoreWrite.writeApp uiEdit] ∧
    (handleAppChange sIdle uiEdit).1 = sIdle ∧
    hasUnsavedChanges (handleAppChange sIdle uiEdit).1 = false ∧
    appBufferAgentOnly (applyModalOp sDirty (ModalOp.appChange uiEdit)) := by
  have hinv : appBufferAgentOnly sDirty := by
    intro p hp
    simp only [sDirty, sIdle] at hp
    rw [List.mem_singleton] at hp
    subst hp
    decide
  have h := C6_ui_only_edits_apply_immediately sIdle uiEdit rfl
    (by decide) (by decide)
  exact ⟨h.1, h.2.1, h.2.2.1 rfl,
    h.2.2.2 sDirty (ModalOp.appChange uiEdit) hinv⟩

/-- C1 counterexample: `yoloMode` is buffered in the project scope, the
effective value is the buffered one, yet `getSource` still reports the
snapshot provenance `app` — it is not forced to `project` before save. -/
theorem C1_source_not_forced_to_project :
    (sEdited.pendingProjectChanges.lookup "yoloMode").isSome = true ∧
    getEffective sEdited "yoloMode" (Value.bool false) = Value.bool true ∧
    getSource sEdited "yoloMode" = SettingSource.app ∧
    getSource sEdited "yoloMode" ≠ SettingSource.project := by decide

/-- C1 amended: for a key buffered in project scope (and not in the
app-scope buffer), the effective value is the buffered one, but the
reported source is whatever the snapshot records — identical to the
source with both buffers cleared, never forced to `project`. -/
theorem C1_buffered_value_keeps_snapshot_source (s : ModalState)
    (k : String) (v fb : Value)
    (hApp : s.pendingAppChanges.lookup k = none)
    (hProj : s.pendingProjectChanges.lookup k = some v) :
    getEffective s k fb = v ∧
    getSource s k =
      getSource
        { s with pendingAppChanges := [], pendingProjectChanges := [] } k := by
  constructor
  · unfold getEffective
    rw [hApp, hProj]
  · rfl

/-- C1 witness: the amended statement at the concrete edited state. -/
theorem C1_buffered_value_keeps_snapshot_source_check :
    getEffective sEdited "yoloMode" (Value.bool false) = Value.bool true ∧
    getSource sEdited "yoloMode" =
      getSource
        { sEdited with
          pendingAppChanges := [], pendingProjectChanges := [] } "yoloMode" :=
  C1_buffered_value_keeps_snapshot_source sEdited "yoloMode"
    (Value.bool true) (Value.bool false) (by decide) (by decide)

/-- C2 counterexample: a key present in both pending buffers resolves to
the app-scope buffered value, not the project-scope one — the app-scope
buffer is consulted first. -/
theorem C2_app_buffer_checked_first :
    (sBothBuffers.pendingAppChanges.lookup "coderModel").isSome = true ∧
    (sBothBuffers.pendingProjectChanges.lookup "coderModel").isSome = true ∧
    getEffective sBothBuffers "coderModel" (Value.str "") =
      Value.str "appChoice" ∧
    getEffective sBothBuffers "coderModel" (Value.str "") ≠
      Value.str "projChoice" := by decide

/-- C2 amended: the app-scope buffer is consulted first; the
project-scope buffer is only consulted when the app-scope buffer has no
entry for the key. -/
theorem C2_pending_buffer_precedence (s : ModalState) (k : String)
    (fb : Value) :
    (∀ v, s.pendingAppChanges.lookup k = some v → getEffective s k fb = v) ∧
    (s.pendingAppChanges.lookup k = none →
      ∀ w, s.pendingProjectChanges.lookup k = some w →
        getEffective s k fb = w) := by
  constructor
  · intro v hv
    unfold getEffective
    rw [hv]
  · intro hnone w hw
    unfold getEffective
    rw [hnone, hw]

/-- C2 witness: both branches of the precedence at concrete states. -/
theorem C2_pending_buffer_precedence_check :
    getEffective sBothBuffers "coderModel" (Value.str "") =
      Value.str "appChoice" ∧
    getEffective sProjOnly "yoloMode" (Value.bool false) = Value.bool true :=
  ⟨(C2_pending_buffer_precedence sBothBuffers "coderModel"
      (Value.str "")).1 (Value.str "appChoice") (by decide),
   (C2_pending_buffer_precedence sProjOnly "yoloMode"
      (Value.bool false)).2 (by decide) (Value.bool true) (by decide)⟩

/-- C7 counterexample: an unrecognized key does not fail — `getSource`
returns `default` and `getEffective` returns the fallback supplied by the caller; no
`UnknownKeyError` exists anywhere in this code path. -/
theorem C7_unknown_key_still_resolves :
    keyUnknown sIdle "notARealSetting" = true ∧
    getSource sIdle "notARealSetting" = SettingSource.default ∧
    getEffective sIdle "notARealSetting" (Value.nat 7) = Value.nat 7 := by
  decide

/-- C7 amended: resolution is total over all string keys — a key unknown
to the buffers and the snapshot resolves to source `default` and the
caller-supplied fallback value instead of failing. -/
theorem C7_resolution_is_total (s : ModalState) (k : String) (fb : Value)
    (h : keyUnknown s k = true) :
    getSource s k = SettingSource.default ∧ getEffective s k fb = fb := by
  unfold keyUnknown at h
  cases hES : s.effectiveSettings with
  | none =>
    rw [hES] at h
    simp only [Bool.and_eq_true, Option.isNone_iff_eq_none] at h
    obtain ⟨⟨h1, h2⟩, -⟩ := h
    constructor
    · simp [getSource, hES]
    · simp [getEffective, hES, h1, h2]
  | some eff =>
    rw [hES] at h
    simp only [Bool.and_eq_true, Option.isNone_iff_eq_none] at h
    obtain ⟨⟨h1, h2⟩, h3, h4⟩ := h
    constructor
    · simp [getSource, hES, h3]
    · simp [getEffective, hES, h1, h2, h4]

/-- C7 witness: total resolution at a concrete unknown key. -/
theorem C7_resolution_is_total_check :
    getSource sIdle "anotherMissingKey" = SettingSource.default ∧
    getEffective sIdle "anotherMissingKey" (Value.nat 3) = Value.nat 3 :=
  C7_resolution_is_total sIdle "anotherMissingKey" (Value.nat 3) (by decide)

/-- C8 counterexample: with no snapshot loaded, the view still resolves —
`getEffective` fabricates the fallback supplied by the caller and `getSource` reports
`default`; nothing refuses to resolve or reports an Unavailable state. -/
theorem C8_no_snapshot_fabricates_fallback :
    sNoSnapshot.effectiveSettings = none ∧
    getEffective sNoSnapshot "yoloMode" (Value.bool true) = Value.bool true ∧
    getEffective sNoSnapshot "coderModel" (Value.str "made-up") =
      Value.str "made-up" ∧
    getSource sNoSnapshot "yoloMode" = SettingSource.default := by decide

/-- C8 amended: when no snapshot is available and a key is not buffered,
`getEffective` returns the caller-supplied fallback and `getSource`
returns `default` — defaults are fabricated rather than refused. -/
theorem C8_no_snapshot_falls_back (s : ModalState) (k : String) (fb : Value)
    (hES : s.effectiveSettings = none)
    (hApp : s.pendingAppChanges.lookup k = none)
    (hProj : s.pendingProjectChanges.lookup k = none) :
    getEffective s k fb = fb ∧ getSource s k = SettingSource.default := by
  constructor
  · simp [getEffective, hES, hApp, hProj]
  · simp [getSource, hES]

/-- C8 witness: fallback fabrication at the concrete no-snapshot state. -/
theorem C8_no_snapshot_falls_back_check :
    getEffective sNoSnapshot "yoloMode" (Value.bool false) =
      Value.bool false ∧
    getSource sNoSnapshot "yoloMode" = SettingSource.default :=
  C8_no_snapshot_falls_back sNoSnapshot "yoloMode" (Value.bool false)
    rfl rfl rfl

end AutocoderSettings
